import Mathlib

/-!
Verification development for the murasame-pp-rs core.

The Rust sources are shallowly embedded as Lean definitions:

* machine integers (`usize`) become `ℕ`; a plain Rust subtraction that can
  underflow (and would panic in debug builds / wrap in release builds) is
  modelled as a checked subtraction returning `Option ℕ`, while
  `saturating_sub` becomes truncated `ℕ` subtraction;
* `f32` arithmetic is idealised as exact arithmetic over `ℚ`;
  transcendental operations (`powf`) and external geometry (curve
  evaluation, vector length) are taken as parameters, so every statement
  proved below holds for all interpretations of those operations;
* external collaborators (skill accumulators, mods bit decoding, beatmap
  lookups) are likewise parameters of the embedding.
-/

/-- Rounding of a non-negative `f32` value (`f32::round`, half away from
zero), idealised over `ℚ`.  All call sites in the embedded code apply it
to non-negative products; for negative arguments the subsequent
`as usize` cast saturates to `0` in both Rust and this model. -/
def roundQ (q : ℚ) : ℤ :=
  Int.floor (q + 1 / 2)

/-- Checked natural subtraction: `some (a - b)` when it does not
underflow, `none` when the Rust `usize` subtraction would panic. -/
def csub (a b : ℕ) : Option ℕ :=
  if b ≤ a then some (a - b) else none

/-- Mod flags queried by the osu performance code (`Mods` trait calls);
the bitmask decoding itself is an external collaborator, so the flags are
modelled as plain booleans. -/
structure Mods where
  nf : Bool
  so : Bool
  rx : Bool
  td : Bool
  hd : Bool
  fl : Bool
deriving DecidableEq

/-- The fields of `osu::DifficultyAttributes` read by `src/osu/pp.rs`. -/
structure DifficultyAttributes where
  aimStrain : ℚ
  speedStrain : ℚ
  flashlightRating : ℚ
  ar : ℚ
  od : ℚ
  maxCombo : ℕ
  nCircles : ℕ
  nSliders : ℕ
  nSpinners : ℕ
deriving DecidableEq

/-- The builder state of `OsuPP` (the map reference is reduced to the
only datum read from it here: `map.hit_objects.len()`, passed separately
as `mapLen`). -/
structure OsuPP where
  n300 : Option ℕ
  n100 : Option ℕ
  n50 : Option ℕ
  nMisses : ℕ
  passedObjects : Option ℕ
  combo : Option ℕ
  mods : Mods
  acc : Option ℚ
deriving DecidableEq

/-- `OsuPP::accuracy` (src/osu/pp.rs lines 150-209).  Plain `usize`
subtractions that can underflow (`missing_objects` on line 162, `delta`
on line 187, `n_objects - n300 - misses` on line 190) are modelled with
`csub`; `none` marks the panicking run.  The subtraction chain
`n_objects - n100 - n50 - n_misses` underflows exactly when the sum of
the subtrahends exceeds `n_objects`, which is what the single `csub`
records.  Line 191 (`n_objects - n300 - n100 - misses`) equals
`rem - n100` with `rem` from line 190 and `n100 ≤ rem`, so it can never
underflow once line 190 succeeded.  `missing_points` (line 164) uses
`saturating_sub` in the source and truncated `ℕ` subtraction here. -/
def OsuPP.accuracy (mapLen : ℕ) (s : OsuPP) (a : ℚ) : Option OsuPP :=
  let nObjects := s.passedObjects.getD mapLen
  let acc : ℚ := a / 100
  let finish : ℕ → ℕ → ℕ → Option OsuPP := fun f300 f100 f50 =>
    some { s with
      n300 := some f300, n100 := some f100, n50 := some f50,
      acc := some (((6 * f300 + 2 * f100 + f50 : ℕ) : ℚ) / ((6 * nObjects : ℕ) : ℚ)) }
  if s.n100.isSome || s.n50.isSome then
    let n100 := s.n100.getD 0
    let n50 := s.n50.getD 0
    let placedPoints := 2 * n100 + n50 + s.nMisses
    match csub nObjects (n100 + n50 + s.nMisses) with
    | none => none
    | some missingObjects =>
      let missingPoints := (roundQ (6 * acc * (nObjects : ℚ))).toNat - placedPoints
      let n300 := min missingObjects (missingPoints / 6)
      let n50a := n50 + (missingObjects - n300)
      match s.n50 with
      | some origN50 =>
        if s.n100 = none then
          let difference := n50a - origN50
          let k := min n300 (difference / 4)
          finish (n300 - k) (n100 + 5 * k) (n50a - 4 * k)
        else
          finish n300 n100 n50a
      | none => finish n300 n100 n50a
  else
    let misses := min s.nMisses nObjects
    let targetTotal := (roundQ (acc * (nObjects : ℚ) * 6)).toNat
    match csub targetTotal (nObjects - misses) with
    | none => none
    | some delta =>
      let n300 := delta / 5
      match csub nObjects (n300 + misses) with
      | none => none
      | some rem =>
        let n100 := min (delta % 5) rem
        let n50 := rem - n100
        let k := min n300 (n50 / 4)
        finish (n300 - k) (n100 + 5 * k) (n50 - 4 * k)

/-- `calculate_effective_misses` (src/osu/pp.rs lines 558-582). -/
def calculateEffectiveMisses (attributes : DifficultyAttributes) (combo : Option ℕ)
    (nMisses : ℕ) (totalHits : ℚ) : ℕ :=
  let comboBasedMisses : ℚ :=
    if 0 < attributes.nSliders then
      let fullComboThreshold : ℚ :=
        (attributes.maxCombo : ℚ) - (1 / 10) * (attributes.nSliders : ℚ)
      match combo with
      | some c => if (c : ℚ) < fullComboThreshold
                  then fullComboThreshold / max (c : ℚ) 1 else 0
      | none => 0
    else 0
  let comboBasedMisses := min comboBasedMisses totalHits
  max nMisses (Int.toNat (Int.floor comboBasedMisses))

/-- The result of `OsuPP::assert_hitresults` (`OsuPPInner`). -/
structure OsuPPInner where
  attributes : DifficultyAttributes
  mods : Mods
  combo : Option ℕ
  acc : ℚ
  n300 : ℕ
  n100 : ℕ
  n50 : ℕ
  totalHits : ℚ
  effectiveMisses : ℕ
deriving DecidableEq

/-- `OsuPP::assert_hitresults` (src/osu/pp.rs lines 211-290).  The
`remaining` computation uses `saturating_sub` in the source, so truncated
`ℕ` subtraction is faithful. -/
def OsuPP.assertHitresults (mapLen : ℕ) (s : OsuPP) (attributes : DifficultyAttributes) :
    OsuPPInner :=
  let nObjects := s.passedObjects.getD mapLen
  match s.acc with
  | some acc =>
    let n300 := s.n300.getD 0
    let n100 := s.n100.getD 0
    let n50 := s.n50.getD 0
    let totalHits : ℚ := (min (n300 + n100 + n50 + s.nMisses) nObjects : ℕ)
    { attributes := attributes, mods := s.mods, combo := s.combo, acc := acc,
      n300 := n300, n100 := n100, n50 := n50, totalHits := totalHits,
      effectiveMisses := calculateEffectiveMisses attributes s.combo s.nMisses totalHits }
  | none =>
    let remaining := nObjects - s.n300.getD 0 - s.n100.getD 0 - s.n50.getD 0 - s.nMisses
    let filled : Option ℕ × Option ℕ × Option ℕ :=
      if 0 < remaining then
        match s.n300 with
        | some t300 =>
          if s.n100 = none then (some t300, some remaining, s.n50)
          else if s.n50 = none then (some t300, s.n100, some remaining)
          else (some (t300 + remaining), s.n100, s.n50)
        | none => (some remaining, s.n100, s.n50)
      else (s.n300, s.n100, s.n50)
    let n300 := filled.1.getD 0
    let n100 := filled.2.1.getD 0
    let n50 := filled.2.2.getD 0
    let numerator := n300 * 6 + n100 * 2 + n50
    let acc : ℚ := (numerator : ℚ) / (nObjects : ℚ) / 6
    let totalHits : ℚ := (min (n300 + n100 + n50 + s.nMisses) nObjects : ℕ)
    { attributes := attributes, mods := s.mods, combo := s.combo, acc := acc,
      n300 := n300, n100 := n100, n50 := n50, totalHits := totalHits,
      effectiveMisses := calculateEffectiveMisses attributes s.combo s.nMisses totalHits }

/-- Transcendental `f32` operations used by the skill-value formulas;
taken as a parameter so that theorems hold for every interpretation. -/
structure FloatOps where
  powf : ℚ → ℚ → ℚ

/-- `OsuPPInner::compute_accuracy_value` (src/osu/pp.rs lines 473-505). -/
def OsuPPInner.computeAccuracyValue (ops : FloatOps) (inner : OsuPPInner) : ℚ :=
  if inner.mods.rx then 0
  else
    let nCircles : ℚ := (inner.attributes.nCircles : ℕ)
    let n300 : ℚ := (inner.n300 : ℕ)
    let n100 : ℚ := (inner.n100 : ℕ)
    let n50 : ℚ := (inner.n50 : ℕ)
    let betterAccPercentage : ℚ :=
      (if 0 < nCircles then 1 else 0) *
        max (((n300 - (inner.totalHits - nCircles)) * 6 + n100 * 2 + n50) / (nCircles * 6)) 0
    let accValue :=
      ops.powf (152163 / 100000) inner.attributes.od * betterAccPercentage ^ 24 * (283 / 100)
    let accValue := accValue * min (ops.powf (nCircles / 1000) (3 / 10)) (115 / 100)
    let accValue := if inner.mods.hd then accValue * (108 / 100) else accValue
    if inner.mods.fl then accValue * (102 / 100) else accValue

/-- Spec-side reconciliation step, written from the specification's words
for comparison with `OsuPP.assertHitresults`: the shortfall between the
given counts and the budget is added to the first not-yet-specified field
in priority order n300 → n100 → n50, or on top of n300 when all three
were already specified. -/
def fillShortfallSpec (n300 n100 n50 : Option ℕ) (misses nObjects : ℕ) : ℕ × ℕ × ℕ :=
  let shortfall := nObjects - (n300.getD 0 + n100.getD 0 + n50.getD 0 + misses)
  match n300, n100, n50 with
  | none, _, _ => (n300.getD 0 + shortfall, n100.getD 0, n50.getD 0)
  | some _, none, _ => (n300.getD 0, n100.getD 0 + shortfall, n50.getD 0)
  | some _, some _, none => (n300.getD 0, n100.getD 0, n50.getD 0 + shortfall)
  | some _, some _, some _ => (n300.getD 0 + shortfall, n100.getD 0, n50.getD 0)

/-- Spec-side effective-miss estimator, written from the specification's
words for comparison with `calculateEffectiveMisses`: the estimate is `0`
unless sliders exist and an achieved combo strictly below the full-combo
threshold is supplied, in which case it is `threshold / max(combo, 1)`
clamped to at most the total judged hits; the result is
`max(reported, floor(estimate))`. -/
def effectiveMissesSpec (attributes : DifficultyAttributes) (combo : Option ℕ)
    (nMisses : ℕ) (totalHits : ℚ) : ℕ :=
  let threshold : ℚ := (attributes.maxCombo : ℚ) - (1 / 10) * (attributes.nSliders : ℚ)
  let estimate : ℚ :=
    match combo with
    | some c =>
      if 0 < attributes.nSliders ∧ (c : ℚ) < threshold
      then min (threshold / max (c : ℚ) 1) totalHits
      else min 0 totalHits
    | none => min 0 totalHits
  max nMisses (Int.toNat (Int.floor estimate))

/-- Context for the taiko gradual-difficulty iterator.  `P` is the type
of the (external) `Peaks` skill accumulator, `O` the type of difficulty
objects; `process`, `diffVals` (returning colour, rhythm, stamina and
combined ratings in that order) and `rescale` are the external
collaborators used by `src/taiko/gradual_difficulty.rs`, and
`difficultyMultiplier` is the external constant `DIFFICULTY_MULTIPLIER`. -/
structure TaikoCtx (P O : Type) where
  process : P → O → P
  isHit : O → Bool
  diffVals : P → ℚ × ℚ × ℚ × ℚ
  rescale : ℚ → ℚ
  difficultyMultiplier : ℚ

/-- `TaikoDifficultyAttributes` as used by the gradual iterator. -/
structure TaikoDifficultyAttributes where
  stamina : ℚ
  rhythm : ℚ
  colour : ℚ
  peak : ℚ
  hitWindow : ℚ
  stars : ℚ
  maxCombo : ℕ
deriving DecidableEq

/-- The state of `TaikoGradualDifficulty`: current index, attributes,
the remaining difficulty-object iterator, the `lists.all.is_empty` flag
(the full list is never consumed, only its clone), the peaks accumulator,
the total hit count and the conversion flag. -/
structure TaikoGradualDifficulty (P O : Type) where
  idx : ℕ
  attrs : TaikoDifficultyAttributes
  diffObjects : List O
  allEmpty : Bool
  peaks : P
  totalHits : ℕ
  isConvert : Bool

/-- The object-consuming loop shared by `next` and `nth`: process
difficulty objects into the accumulator until a hit-type object has been
processed (`true`) or the iterator is exhausted (`false`). -/
def taikoDrain {P O : Type} (c : TaikoCtx P O) : P → List O → P × List O × Bool
  | p, [] => (p, [], false)
  | p, o :: t =>
    let p' := c.process p o
    if c.isHit o then (p', t, true) else taikoDrain c p' t

/-- Lines 169-199 of `src/taiko/gradual_difficulty.rs`: read the current
difficulty values, scale them by the difficulty multiplier, rescale the
combined rating into a star rating and apply the convert penalties. -/
def taikoEmit {P O : Type} (c : TaikoCtx P O) (p : P) (isConvert : Bool)
    (hitWindow : ℚ) (maxCombo : ℕ) : TaikoDifficultyAttributes :=
  let v := c.diffVals p
  let colourRating := v.1 * c.difficultyMultiplier
  let rhythmRating := v.2.1 * c.difficultyMultiplier
  let staminaRating := v.2.2.1 * c.difficultyMultiplier
  let combinedRating := v.2.2.2 * c.difficultyMultiplier
  let starRating := c.rescale (combinedRating * (14 / 10))
  let starRating :=
    if isConvert then
      let s1 := starRating * (925 / 1000)
      if colourRating < 2 ∧ 8 < staminaRating then s1 * (8 / 10) else s1
    else starRating
  { stamina := staminaRating, rhythm := rhythmRating, colour := colourRating,
    peak := combinedRating, hitWindow := hitWindow, stars := starRating,
    maxCombo := maxCombo }

/-- `Iterator::next` for `TaikoGradualDifficulty` (lines 146-202),
returning the emitted snapshot (if any) together with the mutated state.
A run that returns `None` can still have consumed trailing non-hit
objects into the accumulator, exactly as the `?` inside the Rust loop
does. -/
def TaikoGradualDifficulty.next {P O : Type} (c : TaikoCtx P O)
    (s : TaikoGradualDifficulty P O) :
    Option TaikoDifficultyAttributes × TaikoGradualDifficulty P O :=
  if 2 ≤ s.idx then
    match taikoDrain c s.peaks s.diffObjects with
    | (p', rest, true) =>
      let attrs := taikoEmit c p' s.isConvert s.attrs.hitWindow (s.attrs.maxCombo + 1)
      (some attrs, { s with peaks := p', diffObjects := rest, idx := s.idx + 1, attrs := attrs })
    | (p', rest, false) => (none, { s with peaks := p', diffObjects := rest })
  else if s.allEmpty then (none, s)
  else
    let attrs := taikoEmit c s.peaks s.isConvert s.attrs.hitWindow s.attrs.maxCombo
    (some attrs, { s with idx := s.idx + 1, attrs := attrs })

/-- `ExactSizeIterator::len` (lines 240-244).  The Rust subtraction
`total_hits - idx` is a plain `usize` subtraction; truncated `ℕ`
subtraction is used here, and underflow-freedom is stated separately as
exactness of this subtraction. -/
def TaikoGradualDifficulty.len {P O : Type} (s : TaikoGradualDifficulty P O) : ℕ :=
  s.totalHits - s.idx

/-- The skip loop of `Iterator::nth` (lines 221-234): advance over
`take` hit objects, admitting every intermediate object into the
accumulator; `false` reports the early `?` return of the Rust loop. -/
def taikoSkipLoop {P O : Type} (c : TaikoCtx P O) :
    ℕ → TaikoGradualDifficulty P O → TaikoGradualDifficulty P O × Bool
  | 0, s => (s, true)
  | Nat.succ t, s =>
    match taikoDrain c s.peaks s.diffObjects with
    | (p', rest, true) =>
      taikoSkipLoop c t
        { s with peaks := p', diffObjects := rest, idx := s.idx + 1,
                 attrs := { s.attrs with maxCombo := s.attrs.maxCombo + 1 } }
    | (p', rest, false) => ({ s with peaks := p', diffObjects := rest }, false)

/-- `Iterator::nth` for `TaikoGradualDifficulty` (lines 211-237). -/
def TaikoGradualDifficulty.nth {P O : Type} (c : TaikoCtx P O) (n : ℕ)
    (s : TaikoGradualDifficulty P O) :
    Option TaikoDifficultyAttributes × TaikoGradualDifficulty P O :=
  let take := min n (s.len - 1)
  let step : ℕ × TaikoGradualDifficulty P O :=
    if s.idx < 2 ∧ 0 < take then
      let skipped := min take 2
      (take - skipped, { s with idx := s.idx + skipped })
    else (take, s)
  match taikoSkipLoop c step.1 step.2 with
  | (s', true) => TaikoGradualDifficulty.next c s'
  | (s', false) => (none, s')

/-- Taking the single-step operation `k` times: the pair of the `k`-th
result and the state after `k` calls. -/
def taikoNexts {P O : Type} (c : TaikoCtx P O) :
    ℕ → TaikoGradualDifficulty P O →
    Option TaikoDifficultyAttributes × TaikoGradualDifficulty P O
  | 0, s => (none, s)
  | Nat.succ k, s =>
    let out := TaikoGradualDifficulty.next c s
    match k with
    | 0 => out
    | Nat.succ k' => taikoNexts c (Nat.succ k') out.2

/-- `TaikoGradualDifficulty::new` (lines 59-141).  The mode conversion,
hit-window computation and difficulty-object construction are external;
the map is modelled as the list of its (already converted) objects, with
`TaikoCtx.isHit` deciding hit-type.  Modelled from the spec: for taiko
objects, `is_circle` on the raw object and `is_hit` on the converted
object agree (both mean "hit-type"), so the same predicate is used for
the first two objects and for the difficulty objects. -/
def TaikoGradualDifficulty.new {P O : Type} (c : TaikoCtx P O) (hitObjects : List O)
    (p0 : P) (hitWindow : ℚ) (isConvert : Bool) : TaikoGradualDifficulty P O :=
  let attrs0 : TaikoDifficultyAttributes :=
    { stamina := 0, rhythm := 0, colour := 0, peak := 0,
      hitWindow := hitWindow, stars := 0, maxCombo := 0 }
  match hitObjects with
  | o1 :: o2 :: rest =>
    let c0 := (if c.isHit o1 then 1 else 0) + (if c.isHit o2 then 1 else 0)
    let totalHits := c0 + rest.countP (fun o => c.isHit o)
    { idx := 0, attrs := { attrs0 with maxCombo := c0 }, diffObjects := rest,
      allEmpty := rest.isEmpty, peaks := p0, totalHits := totalHits,
      isConvert := isConvert }
  | _ =>
    { idx := 0, attrs := attrs0, diffObjects := [], allEmpty := true,
      peaks := p0, totalHits := 0, isConvert := isConvert }

/-- Equality of the iterator-state components named by the skip-ahead
claim: index, running combo, peak accumulator, remaining objects, and the
bookkeeping fields; the snapshot-only rating fields of `attrs` (which the
final emission always overwrites) are not compared. -/
def taikoStEq {P O : Type} (s s' : TaikoGradualDifficulty P O) : Prop :=
  s.idx = s'.idx ∧ s.attrs.maxCombo = s'.attrs.maxCombo ∧
    s.attrs.hitWindow = s'.attrs.hitWindow ∧ s.diffObjects = s'.diffObjects ∧
    s.peaks = s'.peaks ∧ s.totalHits = s'.totalHits ∧ s.allEmpty = s'.allEmpty ∧
    s.isConvert = s'.isConvert

/-- The length/hit-count invariant maintained by the taiko iterator on
maps whose first two objects are hit-type. -/
def taikoInv {P O : Type} (c : TaikoCtx P O) (s : TaikoGradualDifficulty P O) : Prop :=
  (s.idx < 2 → s.totalHits = 2 + s.diffObjects.countP (fun o => c.isHit o)) ∧
    (2 ≤ s.idx → s.totalHits = s.idx + s.diffObjects.countP (fun o => c.isHit o))

/-- `LEGACY_LAST_TICK_OFFSET` (src/osu_2019/osu_object.rs line 8). -/
def LEGACY_LAST_TICK_OFFSET : ℚ := 36

/-- 2D position (`parse::Pos2`), over `ℚ`. -/
structure Pos2 where
  x : ℚ
  y : ℚ
deriving DecidableEq

/-- Componentwise vector addition. -/
def Pos2.add (a b : Pos2) : Pos2 := ⟨a.x + b.x, a.y + b.y⟩

/-- Componentwise vector subtraction. -/
def Pos2.sub (a b : Pos2) : Pos2 := ⟨a.x - b.x, a.y - b.y⟩

/-- Scaling of a vector by a scalar. -/
def Pos2.scale (a : Pos2) (k : ℚ) : Pos2 := ⟨a.x * k, a.y * k⟩

/-- External geometry operations for one slider: the curve evaluator
(`Curve::position_at`, an external collaborator), the Euclidean length
and the normalisation of a vector (`f32::sqrt`-based, hence taken as
parameters). -/
structure GeomOps where
  positionAt : ℚ → Pos2
  length : Pos2 → ℚ
  normalize : Pos2 → Pos2

/-- The beatmap data read by `OsuObject::new`: slider multiplier, tick
rate, format version, and the timing-point / difficulty-point lookups
(external parsing collaborators, modelled as functions of the start
time; `sliderVel` already includes the `unwrap_or_default`). -/
structure BeatmapCtx where
  sliderMult : ℚ
  tickRate : ℚ
  version : ℕ
  beatLen : ℚ → ℚ
  sliderVel : ℚ → ℚ

/-- `parse::HitObjectKind`, restricted to the data `OsuObject::new`
reads (the slider's control points are folded into `GeomOps.positionAt`). -/
inductive HitObjectKind where
  | circle
  | slider (pixelLen : Option ℚ) (repeats : ℕ)
  | spinner
  | hold
deriving DecidableEq

/-- `parse::HitObject`, restricted to the data `OsuObject::new` reads. -/
structure HitObject where
  pos : Pos2
  startTime : ℚ
  kind : HitObjectKind
deriving DecidableEq

/-- The fields of `osu_2019::stars::OsuDifficultyAttributes` mutated by
`OsuObject::new`. -/
structure OsuDifficultyAttributes where
  maxCombo : ℕ
  nCircles : ℕ
  nSpinners : ℕ
deriving DecidableEq

/-- The normalized object (`osu_2019::osu_object::OsuObject`):
`travelDist` is `some` for circles and sliders and `none` for spinners. -/
structure OsuObject where
  time : ℚ
  pos : Pos2
  endPos : Pos2
  travelDist : Option ℚ
deriving DecidableEq

/-- Truncating float remainder restricted to the non-negative operands
produced by slider progress values (for `a ≥ 0`, `b > 0` the Rust `%` on
`f32` agrees with this floor-based remainder). -/
def qfmod (a b : ℚ) : ℚ := a - b * (Int.floor (a / b) : ℤ)

/-- The `compute_vertex` closure (lines 76-97): increment the combo,
fold the slider progress, and accumulate only the displacement exceeding
the approximate follow-circle radius.  The state is
(end position, travel distance, max combo). -/
def computeVertexStep (g : GeomOps) (hpos : Pos2) (startTime spanDuration radius : ℚ)
    (st : Pos2 × ℚ × ℕ) (time : ℚ) : Pos2 × ℚ × ℕ :=
  let endPos := st.1
  let travelDist := st.2.1
  let combo := st.2.2 + 1
  let progress0 := (time - startTime) / spanDuration
  let progress :=
    if 1 ≤ qfmod progress0 2 then 1 - qfmod progress0 1 else qfmod progress0 1
  let currPos := hpos.add (g.positionAt progress)
  let diff := currPos.sub endPos
  let dist := g.length diff
  let approxFollowCircleRadius := radius * 3
  if approxFollowCircleRadius < dist then
    let dist := dist - approxFollowCircleRadius
    (endPos.add ((g.normalize diff).scale dist), travelDist + dist, combo)
  else (endPos, travelDist, combo)

/-- The tick distance for a slider starting at time `t` (lines 55-62),
including the version-8 velocity clamp. -/
def sliderTickDistance (m : BeatmapCtx) (t : ℚ) : ℚ :=
  let tickDistance := 100 * m.sliderMult / m.tickRate
  if 8 ≤ m.version then
    tickDistance / (min (max (100 / m.sliderVel t) 10) 1000 / 100)
  else tickDistance

/-- The slider duration (lines 68-70). -/
def sliderDuration (m : BeatmapCtx) (t pixelLen : ℚ) (repeats : ℕ) : ℚ :=
  (repeats : ℚ) * m.beatLen t * pixelLen / (m.sliderMult * m.sliderVel t) / 100

/-- The number of iterations of the first-span tick loop (lines
106-117): ticks are emitted at distances `tick_distance, 2·tick_distance,
…` strictly below `target`.  Faithful whenever the loop terminates, i.e.
unless `tick_distance ≤ 0 < target - tick_distance`. -/
def tickCount (tickDistance target : ℚ) : ℕ :=
  if tickDistance < target then (Int.ceil (target / tickDistance) - 1).toNat else 0

/-- The timestamps of the first-span ticks (line 108). -/
def firstSpanTickTimes (startTime timeAdd : ℚ) (n : ℕ) : List ℚ :=
  (List.range n).map (fun i => startTime + timeAdd * ((i : ℚ) + 1))

/-- The vertex timestamps of the repeat spans (lines 120-134): for each
repeat, the reverse point followed by the tick replay (reversed on odd
repeats), using the current contents of the tick buffer. -/
def sliderRepeatTimes (startTime duration : ℚ) (repeats : ℕ) (ticksBuf : List ℚ) : List ℚ :=
  (List.range (repeats - 1)).flatMap (fun i =>
    let repeatId := i + 1
    (startTime + duration / (repeats : ℚ) * (repeatId : ℚ)) ::
      (if repeatId % 2 = 1 then ticksBuf.reverse else ticksBuf))

/-- The slider-tail timestamp (lines 136-141):
`max(start + duration/2, final_span_start + span_duration − 36ms)` with
`final_span_start = start + (repeats−1)·span_duration`. -/
def sliderTailTime (startTime duration spanDuration : ℚ) (repeats : ℕ) : ℚ :=
  max (startTime + duration / 2)
    (startTime + ((repeats - 1 : ℕ) : ℚ) * spanDuration + spanDuration - LEGACY_LAST_TICK_OFFSET)

/-- All timestamps at which `compute_vertex` is invoked for a slider, in
order: first-span ticks, repeat vertices (which replay the tick buffer:
its stale entry-time contents followed by the new ticks), then the tail. -/
def sliderVertexTimes (m : BeatmapCtx) (ticks0 : List ℚ) (startTime pixelLen : ℚ)
    (repeats : ℕ) : List ℚ :=
  let tickDistance := sliderTickDistance m startTime
  let duration := sliderDuration m startTime pixelLen repeats
  let spanDuration := duration / (repeats : ℚ)
  let timeAdd := duration * (tickDistance / (pixelLen * (repeats : ℚ)))
  let target := pixelLen - tickDistance / 8
  let newTicks := firstSpanTickTimes startTime timeAdd (tickCount tickDistance target)
  let ticksBuf := ticks0 ++ newTicks
  newTicks ++ sliderRepeatTimes startTime duration repeats ticksBuf ++
    [sliderTailTime startTime duration spanDuration repeats]

/-- `OsuObject::new` (src/osu_2019/osu_object.rs lines 19-169), returning
the produced object, the updated attributes and the tick buffer after the
call.  The outer `Option` marks divergence of the first-span tick loop
(`tick_distance ≤ 0` with a positive remaining target), which never
returns in Rust; the inner `Option` is the source's return value. -/
def OsuObject.new (g : GeomOps) (m : BeatmapCtx) (radius scalingFactor : ℚ)
    (ticks : List ℚ) (attributes : OsuDifficultyAttributes) (h : HitObject) :
    Option (Option OsuObject × OsuDifficultyAttributes × List ℚ) :=
  let attributes := { attributes with maxCombo := attributes.maxCombo + 1 }
  match h.kind with
  | HitObjectKind.circle =>
    some (some { time := h.startTime, pos := h.pos, endPos := h.pos, travelDist := some 0 },
      { attributes with nCircles := attributes.nCircles + 1 }, ticks)
  | HitObjectKind.spinner =>
    some (some { time := h.startTime, pos := h.pos, endPos := h.pos, travelDist := none },
      { attributes with nSpinners := attributes.nSpinners + 1 }, ticks)
  | HitObjectKind.hold => some (none, attributes, ticks)
  | HitObjectKind.slider pixelLen repeats =>
    let tickDistance := sliderTickDistance m h.startTime
    let pl := pixelLen.getD 0
    let duration := sliderDuration m h.startTime pl repeats
    let spanDuration := duration / (repeats : ℚ)
    let target := pl - tickDistance / 8
    if tickDistance ≤ 0 ∧ tickDistance < target then none
    else
      let times := sliderVertexTimes m ticks h.startTime pl repeats
      let folded :=
        times.foldl (computeVertexStep g h.pos h.startTime spanDuration radius)
          (h.pos, 0, attributes.maxCombo)
      let obj : OsuObject :=
        { time := h.startTime, pos := h.pos, endPos := folded.1,
          travelDist := some (folded.2.1 * scalingFactor) }
      some (some obj, { attributes with maxCombo := folded.2.2 }, [])

/-- A trivial interpretation of the transcendental operations, used only
to instantiate universally quantified theorems in witnesses. -/
def opsId : FloatOps := ⟨fun a _ => a⟩

/-- No mods active. -/
def mods0 : Mods := ⟨false, false, false, false, false, false⟩

/-- Zero difficulty attributes. -/
def attrs0 : DifficultyAttributes := ⟨0, 0, 0, 0, 0, 0, 0, 0, 0⟩

/-- A fresh `OsuPP` builder with `passed_objects` set to `n` and no
counts, no accuracy, no mods. -/
def blankOsuPP (n : ℕ) : OsuPP :=
  { n300 := none, n100 := none, n50 := none, nMisses := 0,
    passedObjects := some n, combo := none, mods := mods0, acc := none }

/-- A builder with only `n100` preset (witness input). -/
def presetOsuPP : OsuPP :=
  { n300 := none, n100 := some 2, n50 := none, nMisses := 0,
    passedObjects := some 10, combo := none, mods := mods0, acc := none }

/-- The scenario of the repository's `osu_missing_objects` test:
`passed_objects = 1234`, `n300 = 1000`, `n100 = 200`, `n50 = 30`. -/
def scenarioC : OsuPP :=
  { n300 := some 1000, n100 := some 200, n50 := some 30, nMisses := 0,
    passedObjects := some 1234, combo := none, mods := mods0, acc := none }

/-- A performance input with the relax mod active (witness input). -/
def innerRx : OsuPPInner :=
  { attributes := attrs0, mods := ⟨false, false, true, false, false, false⟩,
    combo := none, acc := 0, n300 := 0, n100 := 0, n50 := 0,
    totalHits := 0, effectiveMisses := 0 }

/-- A concrete taiko iterator context over `P = ℕ`, `O = Bool`:
processing counts objects, difficulty objects are their own hit flag,
all four ratings equal the accumulator value, rescaling is the identity
and the difficulty multiplier is 1. -/
def ctx0 : TaikoCtx ℕ Bool :=
  { process := fun p _ => p + 1, isHit := fun o => o,
    diffVals := fun p => ((p : ℚ), (p : ℚ), (p : ℚ), (p : ℚ)),
    rescale := fun q => q, difficultyMultiplier := 1 }

/-- Zero taiko attributes. -/
def tattrs0 : TaikoDifficultyAttributes := ⟨0, 0, 0, 0, 0, 0, 0⟩

/-- A streaming-state taiko iterator with one hit object left in the
object iterator but a remaining length of 1 (counterexample input). -/
def ts0 : TaikoGradualDifficulty ℕ Bool :=
  { idx := 2, attrs := tattrs0, diffObjects := [true], allEmpty := false,
    peaks := 0, totalHits := 3, isConvert := false }

/-- A streaming-state taiko iterator with two hit objects left and
remaining length 2 (witness input). -/
def ts1 : TaikoGradualDifficulty ℕ Bool :=
  { idx := 2, attrs := tattrs0, diffObjects := [true, true], allEmpty := false,
    peaks := 0, totalHits := 4, isConvert := false }

/-- The snapshot emitted by the first step of `ts1` under `ctx0`. -/
def w7attrs : TaikoDifficultyAttributes :=
  { stamina := 1, rhythm := 1, colour := 1, peak := 1, hitWindow := 0,
    stars := 14 / 10, maxCombo := 1 }

/-- Trivial geometry (witness input). -/
def geom0 : GeomOps := ⟨fun _ => ⟨0, 0⟩, fun _ => 0, fun p => p⟩

/-- A concrete beatmap context (witness input). -/
def bmap0 : BeatmapCtx := ⟨1, 1, 0, fun _ => 1, fun _ => 1⟩

/-- A hold object at the origin (witness input). -/
def holdObj : HitObject := ⟨⟨0, 0⟩, 0, HitObjectKind.hold⟩

/-- A one-span slider of length 10 (witness input). -/
def sliderObj : HitObject := ⟨⟨0, 0⟩, 0, HitObjectKind.slider (some 10) 1⟩

/-- Zero 2019 attributes. -/
def oattrs0 : OsuDifficultyAttributes := ⟨0, 0, 0⟩

/-- C9: `compute_accuracy_value` returns exactly 0 whenever the relax
modifier is active, for all other inputs (any attributes, judgement
counts, combo, remaining mod flags, and any interpretation of the
transcendental operations). -/
theorem relax_accuracy_value_zero (ops : FloatOps) (inner : OsuPPInner)
    (h : inner.mods.rx = true) : inner.computeAccuracyValue ops = 0 := by
  unfold OsuPPInner.computeAccuracyValue
  simp [h]

/-- Witness for C9 at a concrete relax input. -/
theorem relax_accuracy_value_zero_witness :
    innerRx.mods.rx = true ∧ innerRx.computeAccuracyValue opsId = 0 :=
  ⟨rfl, relax_accuracy_value_zero opsId innerRx rfl⟩

/-- C10: on a Hold-kind input, `OsuObject::new` produces no normalized
object but still increments `max_combo` by exactly 1, leaving
`n_circles`, `n_spinners` and the tick buffer unchanged. -/
theorem hold_increments_combo (g : GeomOps) (m : BeatmapCtx) (radius scalingFactor : ℚ)
    (ticks : List ℚ) (attributes : OsuDifficultyAttributes) (h : HitObject)
    (hk : h.kind = HitObjectKind.hold) :
    OsuObject.new g m radius scalingFactor ticks attributes h =
      some (none, { attributes with maxCombo := attributes.maxCombo + 1 }, ticks) := by
  unfold OsuObject.new
  rw [hk]

/-- Witness for C10 at a concrete hold object. -/
theorem hold_increments_combo_witness :
    holdObj.kind = HitObjectKind.hold ∧
      OsuObject.new geom0 bmap0 1 1 [] oattrs0 holdObj =
        some (none, { oattrs0 with maxCombo := oattrs0.maxCombo + 1 }, []) :=
  ⟨rfl, hold_increments_combo geom0 bmap0 1 1 [] oattrs0 holdObj rfl⟩

/-- C6: `calculate_effective_misses` computes exactly the value described
by the spec (`max(reported, floor(estimate))` with the estimate `0`
unless sliders exist and a combo strictly below the full-combo threshold
is supplied, clamped to the total judged hits), and is therefore always
at least the reported miss count. -/
theorem effective_misses_correct (attributes : DifficultyAttributes) (combo : Option ℕ)
    (nMisses : ℕ) (totalHits : ℚ) :
    calculateEffectiveMisses attributes combo nMisses totalHits =
      effectiveMissesSpec attributes combo nMisses totalHits ∧
    nMisses ≤ calculateEffectiveMisses attributes combo nMisses totalHits := by
  constructor
  · unfold calculateEffectiveMisses effectiveMissesSpec
    rcases combo with _ | c
    · split_ifs <;> rfl
    · dsimp only
      by_cases hs : 0 < attributes.nSliders
      · by_cases hc : (c : ℚ) < (attributes.maxCombo : ℚ) - 1 / 10 * (attributes.nSliders : ℚ)
        · rw [if_pos hs, if_pos hc, if_pos ⟨hs, hc⟩]
        · rw [if_pos hs, if_neg hc, if_neg (fun hh => hc hh.2)]
      · rw [if_neg hs, if_neg (fun hh => hs hh.1)]
  · exact Nat.le_max_left _ _

/-- C3: with `passed_objects` set, no target accuracy given, and given
counts not exceeding the budget, the reconciliation step produces counts
with `n300 + n100 + n50 + misses == passed_objects` exactly, and the
shortfall is placed exactly as the spec's priority rule
(n300 → n100 → n50, or on top of n300 when all three were specified)
describes. -/
theorem assert_hitresults_completion (mapLen : ℕ) (s : OsuPP)
    (attributes : DifficultyAttributes) (p : ℕ)
    (hacc : s.acc = none) (hp : s.passedObjects = some p)
    (hbudget : s.n300.getD 0 + s.n100.getD 0 + s.n50.getD 0 + s.nMisses ≤ p) :
    (s.assertHitresults mapLen attributes).n300 + (s.assertHitresults mapLen attributes).n100 +
        (s.assertHitresults mapLen attributes).n50 + s.nMisses = p ∧
    ((s.assertHitresults mapLen attributes).n300, (s.assertHitresults mapLen attributes).n100,
        (s.assertHitresults mapLen attributes).n50) =
      fillShortfallSpec s.n300 s.n100 s.n50 s.nMisses p := by
  unfold OsuPP.assertHitresults fillShortfallSpec
  rw [hacc, hp]
  dsimp only [Option.getD_some]
  rcases h3 : s.n300 with _ | t3 <;> rcases h1 : s.n100 with _ | t1 <;>
    rcases h5 : s.n50 with _ | t5 <;>
    rw [h3, h1, h5] at hbudget <;>
    simp only [Option.getD_some, Option.getD_none] at hbudget ⊢ <;>
    split_ifs <;> simp_all [Prod.ext_iff] <;> omega

/-- Witness for C3 at the spec's scenario C (`passed_objects = 1234`,
`n300 = 1000`, `n100 = 200`, `n50 = 30`, `misses = 0`). -/
theorem assert_hitresults_completion_witness :
    scenarioC.acc = none ∧ scenarioC.passedObjects = some 1234 ∧
    scenarioC.n300.getD 0 + scenarioC.n100.getD 0 + scenarioC.n50.getD 0 +
      scenarioC.nMisses ≤ 1234 ∧
    (scenarioC.assertHitresults 0 attrs0).n300 + (scenarioC.assertHitresults 0 attrs0).n100 +
      (scenarioC.assertHitresults 0 attrs0).n50 + scenarioC.nMisses = 1234 :=
  ⟨rfl, rfl, by decide,
    (assert_hitresults_completion 0 scenarioC attrs0 1234 rfl rfl (by decide)).1⟩

/-- The star rating stored by `taikoEmit`, expressed through the fields
of the emitted snapshot itself. -/
theorem taikoEmit_stars {P O : Type} (c : TaikoCtx P O) (p : P) (isConvert : Bool)
    (hitWindow : ℚ) (maxCombo : ℕ) :
    (taikoEmit c p isConvert hitWindow maxCombo).stars =
      (if isConvert then
        (if (taikoEmit c p isConvert hitWindow maxCombo).colour < 2 ∧
            8 < (taikoEmit c p isConvert hitWindow maxCombo).stamina
         then c.rescale ((taikoEmit c p isConvert hitWindow maxCombo).peak * (14 / 10)) *
            (925 / 1000) * (8 / 10)
         else c.rescale ((taikoEmit c p isConvert hitWindow maxCombo).peak * (14 / 10)) *
            (925 / 1000))
       else c.rescale ((taikoEmit c p isConvert hitWindow maxCombo).peak * (14 / 10))) := by
  cases isConvert
  · simp [taikoEmit]
  · simp only [taikoEmit]

/-- C7: every snapshot emitted by a single step of the taiko gradual
iterator carries a star rating that equals the rescaled combined rating
(the stored `peak` times 1.4, rescaled) with, exactly on cross-mode
conversions, a flat 0.925 penalty and an additional 0.8 penalty exactly
when the multiplier-scaled colour rating is below 2 and the stamina
rating is above 8. -/
theorem convert_star_penalties {P O : Type} (c : TaikoCtx P O)
    (s : TaikoGradualDifficulty P O) (a : TaikoDifficultyAttributes)
    (h : (TaikoGradualDifficulty.next c s).1 = some a) :
    a.stars =
      (if s.isConvert then
        (if a.colour < 2 ∧ 8 < a.stamina
         then c.rescale (a.peak * (14 / 10)) * (925 / 1000) * (8 / 10)
         else c.rescale (a.peak * (14 / 10)) * (925 / 1000))
       else c.rescale (a.peak * (14 / 10))) := by
  unfold TaikoGradualDifficulty.next at h
  by_cases hidx : 2 ≤ s.idx
  · rw [if_pos hidx] at h
    rcases hd : taikoDrain c s.peaks s.diffObjects with ⟨p', rest, found⟩
    rw [hd] at h
    cases found
    · exact absurd h (by simp)
    · dsimp only at h
      have ha : a = taikoEmit c p' s.isConvert s.attrs.hitWindow (s.attrs.maxCombo + 1) :=
        (Option.some_inj.mp h).symm
      rw [ha]
      exact taikoEmit_stars c p' s.isConvert s.attrs.hitWindow (s.attrs.maxCombo + 1)
  · rw [if_neg hidx] at h
    by_cases he : s.allEmpty
    · rw [if_pos he] at h
      exact absurd h (by simp)
    · rw [if_neg he] at h
      dsimp only at h
      have ha : a = taikoEmit c s.peaks s.isConvert s.attrs.hitWindow s.attrs.maxCombo :=
        (Option.some_inj.mp h).symm
      rw [ha]
      exact taikoEmit_stars c s.peaks s.isConvert s.attrs.hitWindow s.attrs.maxCombo

/-- Witness for C7 at a concrete step. -/
theorem convert_star_penalties_witness :
    (TaikoGradualDifficulty.next ctx0 ts1).1 = some w7attrs ∧
    w7attrs.stars =
      (if ts1.isConvert then
        (if w7attrs.colour < 2 ∧ 8 < w7attrs.stamina
         then ctx0.rescale (w7attrs.peak * (14 / 10)) * (925 / 1000) * (8 / 10)
         else ctx0.rescale (w7attrs.peak * (14 / 10)) * (925 / 1000))
       else ctx0.rescale (w7attrs.peak * (14 / 10))) := by
  have hn : (TaikoGradualDifficulty.next ctx0 ts1).1 = some w7attrs := by
    simp [TaikoGradualDifficulty.next, ctx0, ts1, taikoDrain, taikoEmit, w7attrs, tattrs0]
  exact ⟨hn, convert_star_penalties ctx0 ts1 w7attrs hn⟩

/-- Each vertex visit increments the combo component by exactly 1. -/
theorem computeVertexStep_combo (g : GeomOps) (hpos : Pos2)
    (startTime spanDuration radius : ℚ) (st : Pos2 × ℚ × ℕ) (time : ℚ) :
    (computeVertexStep g hpos startTime spanDuration radius st time).2.2 = st.2.2 + 1 := by
  unfold computeVertexStep
  dsimp only
  split_ifs <;> rfl

/-- Folding the vertex visitor over a list of timestamps increments the
combo component by the length of the list. -/
theorem foldl_vertex_combo (g : GeomOps) (hpos : Pos2)
    (startTime spanDuration radius : ℚ) :
    ∀ (l : List ℚ) (st : Pos2 × ℚ × ℕ),
      (l.foldl (computeVertexStep g hpos startTime spanDuration radius) st).2.2 =
        st.2.2 + l.length := by
  intro l
  induction l with
  | nil => intro st; rfl
  | cons t ts ih =>
    intro st
    rw [List.foldl_cons, ih, computeVertexStep_combo]
    simp only [List.length_cons]
    omega

/-- The last element of a list with an appended singleton. -/
theorem getLast?_append_singleton {α : Type} : ∀ (l : List α) (x : α),
    (l ++ [x]).getLast? = some x := by
  intro l x
  rw [List.getLast?_append_of_ne_nil l (by simp)]
  rfl

/-- C8: for every slider whose tick loop terminates, the final tail
vertex is the last visited vertex, its timestamp is
`max(start + duration/2, final_span_start + span_duration − 36)` with
`final_span_start = start + (repeats−1)·span_duration`, and every visited
vertex (the tail included) increments `max_combo`, on top of the generic
`+1` for the object head. -/
theorem slider_tail_vertex (g : GeomOps) (m : BeatmapCtx) (radius scalingFactor : ℚ)
    (ticks : List ℚ) (attributes : OsuDifficultyAttributes) (h : HitObject)
    (pixelLen : Option ℚ) (repeats : ℕ)
    (hk : h.kind = HitObjectKind.slider pixelLen repeats)
    (hterm : ¬(sliderTickDistance m h.startTime ≤ 0 ∧
      sliderTickDistance m h.startTime <
        pixelLen.getD 0 - sliderTickDistance m h.startTime / 8)) :
    ∃ endPos travel,
      OsuObject.new g m radius scalingFactor ticks attributes h =
        some (some ⟨h.startTime, h.pos, endPos, some travel⟩,
          { attributes with maxCombo := attributes.maxCombo + 1 +
              (sliderVertexTimes m ticks h.startTime (pixelLen.getD 0) repeats).length }, []) ∧
      (sliderVertexTimes m ticks h.startTime (pixelLen.getD 0) repeats).getLast? =
        some (sliderTailTime h.startTime
          (sliderDuration m h.startTime (pixelLen.getD 0) repeats)
          (sliderDuration m h.startTime (pixelLen.getD 0) repeats / (repeats : ℚ)) repeats) ∧
      sliderTailTime h.startTime (sliderDuration m h.startTime (pixelLen.getD 0) repeats)
          (sliderDuration m h.startTime (pixelLen.getD 0) repeats / (repeats : ℚ)) repeats =
        max (h.startTime + sliderDuration m h.startTime (pixelLen.getD 0) repeats / 2)
          (h.startTime + ((repeats - 1 : ℕ) : ℚ) *
              (sliderDuration m h.startTime (pixelLen.getD 0) repeats / (repeats : ℚ)) +
            sliderDuration m h.startTime (pixelLen.getD 0) repeats / (repeats : ℚ) -
            LEGACY_LAST_TICK_OFFSET) := by
  have hlast : (sliderVertexTimes m ticks h.startTime (pixelLen.getD 0) repeats).getLast? =
      some (sliderTailTime h.startTime
        (sliderDuration m h.startTime (pixelLen.getD 0) repeats)
        (sliderDuration m h.startTime (pixelLen.getD 0) repeats / (repeats : ℚ)) repeats) := by
    unfold sliderVertexTimes
    dsimp only
    exact getLast?_append_singleton _ _
  unfold OsuObject.new
  rw [hk]
  dsimp only
  rw [if_neg hterm]
  rw [foldl_vertex_combo]
  exact ⟨_, _, rfl, hlast, rfl⟩

/-- Witness for C8 at a concrete one-span slider. -/
theorem slider_tail_vertex_witness :
    sliderObj.kind = HitObjectKind.slider (some 10) 1 ∧
    ¬(sliderTickDistance bmap0 sliderObj.startTime ≤ 0 ∧
      sliderTickDistance bmap0 sliderObj.startTime <
        (some (10 : ℚ)).getD 0 - sliderTickDistance bmap0 sliderObj.startTime / 8) ∧
    (∃ endPos travel,
      OsuObject.new geom0 bmap0 1 1 [] oattrs0 sliderObj =
        some (some ⟨sliderObj.startTime, sliderObj.pos, endPos, some travel⟩,
          { oattrs0 with maxCombo := oattrs0.maxCombo + 1 +
              (sliderVertexTimes bmap0 [] sliderObj.startTime ((some (10 : ℚ)).getD 0) 1).length }, []) ∧
      (sliderVertexTimes bmap0 [] sliderObj.startTime ((some (10 : ℚ)).getD 0) 1).getLast? =
        some (sliderTailTime sliderObj.startTime
          (sliderDuration bmap0 sliderObj.startTime ((some (10 : ℚ)).getD 0) 1)
          (sliderDuration bmap0 sliderObj.startTime ((some (10 : ℚ)).getD 0) 1 / ((1 : ℕ) : ℚ)) 1) ∧
      sliderTailTime sliderObj.startTime
          (sliderDuration bmap0 sliderObj.startTime ((some (10 : ℚ)).getD 0) 1)
          (sliderDuration bmap0 sliderObj.startTime ((some (10 : ℚ)).getD 0) 1 / ((1 : ℕ) : ℚ)) 1 =
        max (sliderObj.startTime + sliderDuration bmap0 sliderObj.startTime ((some (10 : ℚ)).getD 0) 1 / 2)
          (sliderObj.startTime + ((1 - 1 : ℕ) : ℚ) *
              (sliderDuration bmap0 sliderObj.startTime ((some (10 : ℚ)).getD 0) 1 / ((1 : ℕ) : ℚ)) +
            sliderDuration bmap0 sliderObj.startTime ((some (10 : ℚ)).getD 0) 1 / ((1 : ℕ) : ℚ) -
            LEGACY_LAST_TICK_OFFSET)) := by
  have hterm : ¬(sliderTickDistance bmap0 sliderObj.startTime ≤ 0 ∧
      sliderTickDistance bmap0 sliderObj.startTime <
        (some (10 : ℚ)).getD 0 - sliderTickDistance bmap0 sliderObj.startTime / 8) := by
    simp [sliderTickDistance, bmap0, sliderObj]
  exact ⟨rfl, hterm, slider_tail_vertex geom0 bmap0 1 1 [] oattrs0 sliderObj (some 10) 1 rfl hterm⟩

/-- C1 (amended): the underflow-freedom of the core subtractions holds
on the domains the code actually guards.  With presets, `OsuPP::accuracy`
never underflows provided the preset counts and misses do not exceed the
object budget; without presets it never underflows provided the rounded
point target lies between the all-50 floor `n − misses` and
`6·(n − misses) + 4`; and the `len` subtraction of the taiko iterator is
exact whenever the current index has not passed `total_hits`.  (As
stated, with unrestricted inputs, the claim is refuted by the
counterexample below: only the `missing_points` and `remaining`
subtractions are saturating, the others are plain.) -/
theorem subtraction_underflow_freedom :
    (∀ (mapLen : ℕ) (s : OsuPP) (a : ℚ),
      (s.n100.isSome || s.n50.isSome) = true →
      s.n100.getD 0 + s.n50.getD 0 + s.nMisses ≤ s.passedObjects.getD mapLen →
      (OsuPP.accuracy mapLen s a).isSome = true) ∧
    (∀ (mapLen : ℕ) (s : OsuPP) (a : ℚ),
      (s.n100.isSome || s.n50.isSome) = false →
      s.passedObjects.getD mapLen - min s.nMisses (s.passedObjects.getD mapLen) ≤
        (roundQ (a / 100 * ((s.passedObjects.getD mapLen : ℕ) : ℚ) * 6)).toNat →
      (roundQ (a / 100 * ((s.passedObjects.getD mapLen : ℕ) : ℚ) * 6)).toNat ≤
        6 * (s.passedObjects.getD mapLen - min s.nMisses (s.passedObjects.getD mapLen)) + 4 →
      (OsuPP.accuracy mapLen s a).isSome = true) ∧
    (∀ (P O : Type) (st : TaikoGradualDifficulty P O),
      st.idx ≤ st.totalHits → st.len + st.idx = st.totalHits) := by
  refine ⟨?_, ?_, ?_⟩
  · intro mapLen s a hbr hbud
    simp only [OsuPP.accuracy]
    rw [if_pos hbr]
    have hc : csub (s.passedObjects.getD mapLen) (s.n100.getD 0 + s.n50.getD 0 + s.nMisses) =
        some (s.passedObjects.getD mapLen - (s.n100.getD 0 + s.n50.getD 0 + s.nMisses)) := by
      unfold csub
      rw [if_pos hbud]
    rw [hc]
    rcases s.n50 with _ | o
    · simp
    · split_ifs <;> simp
  · intro mapLen s a hbr h1 h2
    simp only [OsuPP.accuracy]
    rw [hbr]
    simp only [Bool.false_eq_true, if_false]
    set n := s.passedObjects.getD mapLen with hn
    set m := min s.nMisses n with hm
    set t := (roundQ (a / 100 * (n : ℚ) * 6)).toNat with ht
    have hc1 : csub t (n - m) = some (t - (n - m)) := by
      unfold csub
      rw [if_pos h1]
    rw [hc1]
    dsimp only
    have hdiv : (t - (n - m)) / 5 + m ≤ n := by omega
    have hc2 : csub n ((t - (n - m)) / 5 + m) = some (n - ((t - (n - m)) / 5 + m)) := by
      unfold csub
      rw [if_pos hdiv]
    rw [hc2]
    rfl
  · intro P O st hle
    unfold TaikoGradualDifficulty.len
    omega

/-- Counterexample for C1 as stated: at target accuracy 0 (an admissible
member of `[0, 100]`) with one passed object and no misses, the `delta`
subtraction of `OsuPP::accuracy` underflows (the model returns `none`,
marking the panicking/wrapping run). -/
theorem subtraction_underflow_counterexample :
    OsuPP.accuracy 1 (blankOsuPP 1) 0 = none := by
  norm_num [OsuPP.accuracy, blankOsuPP, csub, roundQ]

/-- Witness for C1 (amended) at concrete inputs for all three parts. -/
theorem subtraction_underflow_freedom_witness :
    ((presetOsuPP.n100.isSome || presetOsuPP.n50.isSome) = true ∧
      presetOsuPP.n100.getD 0 + presetOsuPP.n50.getD 0 + presetOsuPP.nMisses ≤
        presetOsuPP.passedObjects.getD 0 ∧
      (OsuPP.accuracy 0 presetOsuPP 50).isSome = true) ∧
    (((blankOsuPP 10).n100.isSome || (blankOsuPP 10).n50.isSome) = false ∧
      (blankOsuPP 10).passedObjects.getD 0 -
          min (blankOsuPP 10).nMisses ((blankOsuPP 10).passedObjects.getD 0) ≤
        (roundQ (50 / 100 * (((blankOsuPP 10).passedObjects.getD 0 : ℕ) : ℚ) * 6)).toNat ∧
      (roundQ (50 / 100 * (((blankOsuPP 10).passedObjects.getD 0 : ℕ) : ℚ) * 6)).toNat ≤
        6 * ((blankOsuPP 10).passedObjects.getD 0 -
          min (blankOsuPP 10).nMisses ((blankOsuPP 10).passedObjects.getD 0)) + 4 ∧
      (OsuPP.accuracy 0 (blankOsuPP 10) 50).isSome = true) ∧
    (ts1.idx ≤ ts1.totalHits ∧ ts1.len + ts1.idx = ts1.totalHits) := by
  have hb1 : (presetOsuPP.n100.isSome || presetOsuPP.n50.isSome) = true := rfl
  have hb2 : presetOsuPP.n100.getD 0 + presetOsuPP.n50.getD 0 + presetOsuPP.nMisses ≤
      presetOsuPP.passedObjects.getD 0 := by decide
  have hc1 : ((blankOsuPP 10).n100.isSome || (blankOsuPP 10).n50.isSome) = false := rfl
  have hc2 : (blankOsuPP 10).passedObjects.getD 0 -
      min (blankOsuPP 10).nMisses ((blankOsuPP 10).passedObjects.getD 0) ≤
      (roundQ (50 / 100 * (((blankOsuPP 10).passedObjects.getD 0 : ℕ) : ℚ) * 6)).toNat := by
    norm_num [blankOsuPP, roundQ]
  have hc3 : (roundQ (50 / 100 * (((blankOsuPP 10).passedObjects.getD 0 : ℕ) : ℚ) * 6)).toNat ≤
      6 * ((blankOsuPP 10).passedObjects.getD 0 -
        min (blankOsuPP 10).nMisses ((blankOsuPP 10).passedObjects.getD 0)) + 4 := by
    norm_num [blankOsuPP, roundQ]
  have ht : ts1.idx ≤ ts1.totalHits := by decide
  exact ⟨⟨hb1, hb2, subtraction_underflow_freedom.1 0 presetOsuPP 50 hb1 hb2⟩,
    ⟨hc1, hc2, hc3, subtraction_underflow_freedom.2.1 0 (blankOsuPP 10) 50 hc1 hc2 hc3⟩,
    ⟨ht, subtraction_underflow_freedom.2.2 ℕ Bool ts1 ht⟩⟩

/-- The rounded-then-truncated point target is bounded by any natural
bound on its argument. -/
theorem roundQ_le_of_le (x : ℚ) (b : ℕ) (hx : x ≤ (b : ℚ)) : (roundQ x).toNat ≤ b := by
  rw [Int.toNat_le]
  unfold roundQ
  have hlt : x + 1 / 2 < ((b : ℤ) : ℚ) + 1 := by push_cast; linarith
  have := Int.floor_lt.mpr (by push_cast at hlt ⊢; linarith : x + 1 / 2 < (((b : ℤ) + 1 : ℤ) : ℚ))
  omega

/-- The rounded-then-truncated point target is within 1/2 of its
(non-negative) argument. -/
theorem roundQ_toNat_close (x : ℚ) (hx : 0 ≤ x) : |(((roundQ x).toNat : ℕ) : ℚ) - x| ≤ 1 / 2 := by
  have h0 : (0 : ℤ) ≤ roundQ x := Int.floor_nonneg.mpr (by linarith)
  have key : (((roundQ x).toNat : ℕ) : ℚ) = ((roundQ x : ℤ) : ℚ) := by
    exact_mod_cast congrArg (fun z : ℤ => (z : ℚ)) (Int.toNat_of_nonneg h0)
  have h1 : ((roundQ x : ℤ) : ℚ) ≤ x + 1 / 2 := Int.floor_le _
  have h2 : x + 1 / 2 - 1 < ((roundQ x : ℤ) : ℚ) := Int.sub_one_lt_floor _
  rw [key, abs_le]
  constructor <;> linarith

/-- C4 (amended): for any object count in `[75, 10000]`, zero misses and
no preset counts, and any target accuracy in `[0, 100]` high enough that
the rounded point target covers the all-50 floor (so the solver does not
underflow — see the C1 analysis), the solver completes and the recomputed
accuracy `(6·n300 + 2·n100 + n50) / (6·total_objects)` is within 1
percentage point of the target.  (As stated, over `[1, 10000]`, the
claim fails: at `total_objects = 1`, target 90, the solver yields a lone
n100, i.e. 33.3% — see the counterexample.) -/
theorem accuracy_recovery (n : ℕ) (a : ℚ) (h75 : 75 ≤ n) (hN : n ≤ 10000)
    (ha0 : 0 ≤ a) (ha100 : a ≤ 100)
    (ht : n ≤ (roundQ (a / 100 * (n : ℚ) * 6)).toNat) :
    ∃ st : OsuPP, OsuPP.accuracy n (blankOsuPP n) a = some st ∧
      ∃ q : ℚ, st.acc = some q ∧ |q - a / 100| ≤ 1 / 100 := by
  have hn0 : (0 : ℚ) ≤ (n : ℚ) := Nat.cast_nonneg n
  have htop : (roundQ (a / 100 * (n : ℚ) * 6)).toNat ≤ 6 * n := by
    apply roundQ_le_of_le
    push_cast
    nlinarith
  simp only [OsuPP.accuracy]
  rw [show ((blankOsuPP n).n100.isSome || (blankOsuPP n).n50.isSome) = false from rfl]
  simp only [Bool.false_eq_true, if_false]
  rw [show (blankOsuPP n).passedObjects.getD n = n from rfl]
  rw [show (blankOsuPP n).nMisses = 0 from rfl]
  rw [Nat.zero_min, Nat.sub_zero]
  set t := (roundQ (a / 100 * (n : ℚ) * 6)).toNat with htdef
  rw [show csub t n = some (t - n) from by unfold csub; rw [if_pos ht]]
  dsimp only
  rw [Nat.add_zero]
  have hdivle : (t - n) / 5 ≤ n := by omega
  rw [show csub n ((t - n) / 5) = some (n - (t - n) / 5) from by unfold csub; rw [if_pos hdivle]]
  dsimp only
  refine ⟨_, rfl, _, rfl, ?_⟩
  set d5 := (t - n) / 5 with hd5
  set r := n - d5 with hr
  set b := min ((t - n) % 5) r with hb
  set c := r - b with hc
  set k := min d5 (c / 4) with hk
  have hscore : t - 4 ≤ 6 * (d5 - k) + 2 * (b + 5 * k) + (c - 4 * k) ∧
      6 * (d5 - k) + 2 * (b + 5 * k) + (c - 4 * k) ≤ t := by omega
  set S := 6 * (d5 - k) + 2 * (b + 5 * k) + (c - 4 * k) with hS
  have hxt : |((t : ℕ) : ℚ) - a / 100 * (n : ℚ) * 6| ≤ 1 / 2 := by
    rw [htdef]
    exact roundQ_toNat_close _ (by positivity)
  have hc1 : ((S : ℕ) : ℚ) ≤ ((t : ℕ) : ℚ) := by exact_mod_cast hscore.2
  have hc2 : ((t : ℕ) : ℚ) ≤ ((S : ℕ) : ℚ) + 4 := by
    have : t ≤ S + 4 := by omega
    exact_mod_cast this
  have h6n : (0 : ℚ) < ((6 * n : ℕ) : ℚ) := by
    have : 0 < 6 * n := by omega
    exact_mod_cast this
  have hsplit : ((S : ℕ) : ℚ) / ((6 * n : ℕ) : ℚ) - a / 100 =
      (((S : ℕ) : ℚ) - a / 100 * (n : ℚ) * 6) / ((6 * n : ℕ) : ℚ) := by
    field_simp
    ring
  rw [hsplit, abs_div, abs_of_pos h6n, div_le_iff₀ h6n]
  have habs : |((S : ℕ) : ℚ) - a / 100 * (n : ℚ) * 6| ≤ 9 / 2 := by
    calc |((S : ℕ) : ℚ) - a / 100 * (n : ℚ) * 6|
        ≤ |((S : ℕ) : ℚ) - ((t : ℕ) : ℚ)| + |((t : ℕ) : ℚ) - a / 100 * (n : ℚ) * 6| :=
          abs_sub_le _ _ _
      _ ≤ 4 + 1 / 2 := by
          have : |((S : ℕ) : ℚ) - ((t : ℕ) : ℚ)| ≤ 4 := by
            rw [abs_le]
            constructor <;> linarith
          linarith
      _ = 9 / 2 := by norm_num
  have h450 : (450 : ℚ) ≤ ((6 * n : ℕ) : ℚ) := by
    have : 450 ≤ 6 * n := by omega
    exact_mod_cast this
  calc |((S : ℕ) : ℚ) - a / 100 * (n : ℚ) * 6| ≤ 9 / 2 := habs
    _ ≤ 1 / 100 * ((6 * n : ℕ) : ℚ) := by linarith

/-- Counterexample for C4 as stated: at `total_objects = 1` (an
admissible member of `[1, 10000]`) and target accuracy 90, the solver
produces a single n100, whose recomputed accuracy 1/3 is off the target
by 56.7 percentage points. -/
theorem accuracy_recovery_counterexample :
    OsuPP.accuracy 1 (blankOsuPP 1) 90 =
      some { n300 := some 0, n100 := some 1, n50 := some 0, nMisses := 0,
             passedObjects := some 1, combo := none, mods := mods0,
             acc := some (1 / 3) } ∧
    ¬(|(1 : ℚ) / 3 - 90 / 100| ≤ 1 / 100) := by
  constructor
  · rw [show OsuPP.accuracy 1 (blankOsuPP 1) 90 = OsuPP.accuracy 1 (blankOsuPP 1) 90 from rfl]
    simp only [OsuPP.accuracy]
    rw [show (((blankOsuPP 1).n100.isSome || (blankOsuPP 1).n50.isSome)) = false from rfl]
    simp only [Bool.false_eq_true, if_false]
    rw [show (blankOsuPP 1).passedObjects.getD 1 = 1 from rfl]
    rw [show (blankOsuPP 1).nMisses = 0 from rfl]
    rw [Nat.zero_min, Nat.sub_zero]
    have ht5 : (roundQ ((90 : ℚ) / 100 * ((1 : ℕ) : ℚ) * 6)).toNat = 5 := by
      norm_num [roundQ]
      rfl
    rw [ht5]
    rw [show csub 5 1 = some 4 from rfl]
    dsimp only
    rw [Nat.add_zero]
    rw [show csub 1 (4 / 5) = some 1 from rfl]
    dsimp only
    rw [show (4 / 5 : ℕ) = 0 from rfl, show (4 % 5 : ℕ) = 4 from rfl]
    norm_num [blankOsuPP]
  · intro hcon
    rw [abs_le] at hcon
    have := hcon.1
    norm_num at this

/-- Witness for C4 (amended) at `total_objects = 100`, target 50. -/
theorem accuracy_recovery_witness :
    75 ≤ 100 ∧ (100 : ℕ) ≤ 10000 ∧ (0 : ℚ) ≤ 50 ∧ (50 : ℚ) ≤ 100 ∧
    100 ≤ (roundQ ((50 : ℚ) / 100 * ((100 : ℕ) : ℚ) * 6)).toNat ∧
    (∃ st : OsuPP, OsuPP.accuracy 100 (blankOsuPP 100) 50 = some st ∧
      ∃ q : ℚ, st.acc = some q ∧ |q - 50 / 100| ≤ 1 / 100) := by
  have hr : 100 ≤ (roundQ ((50 : ℚ) / 100 * ((100 : ℕ) : ℚ) * 6)).toNat := by
    norm_num [roundQ]
  exact ⟨by norm_num, by norm_num, by norm_num, by norm_num, hr,
    accuracy_recovery 100 50 (by norm_num) (by norm_num) (by norm_num) (by norm_num) hr⟩

/-- A successful drain consumes exactly one hit-type object. -/
theorem taikoDrain_true_count {P O : Type} (c : TaikoCtx P O) :
    ∀ (l : List O) (p p' : P) (rest : List O),
      taikoDrain c p l = (p', rest, true) →
      l.countP (fun o => c.isHit o) = rest.countP (fun o => c.isHit o) + 1 := by
  intro l
  induction l with
  | nil => intro p p' rest h; exact absurd h (by simp [taikoDrain])
  | cons o t ih =>
    intro p p' rest h
    unfold taikoDrain at h
    cases ho : c.isHit o
    · rw [ho] at h
      simp only [Bool.false_eq_true, if_false] at h
      simp only [List.countP_cons, ho]
      simpa using ih _ _ _ h
    · rw [ho] at h
      simp only [if_true, Prod.mk.injEq] at h
      obtain ⟨-, h2, -⟩ := h
      simp [List.countP_cons, ho, ← h2]

/-- A failed drain means no hit-type object was left; it consumes the
whole iterator. -/
theorem taikoDrain_false_count {P O : Type} (c : TaikoCtx P O) :
    ∀ (l : List O) (p p' : P) (rest : List O),
      taikoDrain c p l = (p', rest, false) →
      l.countP (fun o => c.isHit o) = 0 ∧ rest = [] := by
  intro l
  induction l with
  | nil =>
    intro p p' rest h
    simp only [taikoDrain, Prod.mk.injEq] at h
    exact ⟨rfl, h.2.1.symm⟩
  | cons o t ih =>
    intro p p' rest h
    unfold taikoDrain at h
    cases ho : c.isHit o
    · rw [ho] at h
      simp only [Bool.false_eq_true, if_false] at h
      obtain ⟨hcount, hrest⟩ := ih _ _ _ h
      refine ⟨?_, hrest⟩
      simp only [List.countP_cons, ho]
      simpa using hcount
    · rw [ho] at h
      simp only [if_true, Prod.mk.injEq] at h
      exact absurd h.2.2 (by simp)

/-- If no hit-type object is left, the drain fails. -/
theorem taikoDrain_of_count_zero {P O : Type} (c : TaikoCtx P O) :
    ∀ (l : List O) (p : P), l.countP (fun o => c.isHit o) = 0 →
      ∃ p', taikoDrain c p l = (p', [], false) := by
  intro l
  induction l with
  | nil => intro p _; exact ⟨p, rfl⟩
  | cons o t ih =>
    intro p hcount
    have ho : c.isHit o = false := by
      cases ho : c.isHit o
      · rfl
      · simp [List.countP_cons, ho] at hcount
    simp only [List.countP_cons, ho] at hcount
    obtain ⟨p', hp'⟩ := ih (c.process p o) (by simpa using hcount)
    refine ⟨p', ?_⟩
    unfold taikoDrain
    rw [ho]
    simpa using hp'

/-- C5 (amended): for maps with at least two objects whose first two
objects are hit-type, the freshly constructed iterator's remaining
length equals the count of hit-type objects; the construction
establishes the length invariant, every step preserves it, and under it
every successful `next` decreases the remaining length by exactly 1 and
`next` emits no snapshot once the remaining length is 0.  (As stated,
for arbitrary maps, the claim fails: a single-object map has one
hit-type object but initial length 0 — see the counterexample; and on
maps whose first two objects are not hit-type, priming emissions
outnumber `total_hits`, so a snapshot can still be emitted at length 0.) -/
theorem iterator_length_invariants {P O : Type} (c : TaikoCtx P O) (o1 o2 : O)
    (rest : List O) (p0 : P) (hw : ℚ) (cv : Bool)
    (h1 : c.isHit o1 = true) (h2 : c.isHit o2 = true) :
    (TaikoGradualDifficulty.new c (o1 :: o2 :: rest) p0 hw cv).len =
      (o1 :: o2 :: rest).countP (fun o => c.isHit o) ∧
    taikoInv c (TaikoGradualDifficulty.new c (o1 :: o2 :: rest) p0 hw cv) ∧
    (∀ s : TaikoGradualDifficulty P O, taikoInv c s →
      taikoInv c (TaikoGradualDifficulty.next c s).2) ∧
    (∀ (s : TaikoGradualDifficulty P O) (a : TaikoDifficultyAttributes),
      taikoInv c s → (TaikoGradualDifficulty.next c s).1 = some a →
      (TaikoGradualDifficulty.next c s).2.len + 1 = s.len) ∧
    (∀ s : TaikoGradualDifficulty P O, taikoInv c s → s.len = 0 →
      (TaikoGradualDifficulty.next c s).1 = none) := by
  refine ⟨?_, ?_, ?_, ?_, ?_⟩
  · unfold TaikoGradualDifficulty.new TaikoGradualDifficulty.len
    simp [h1, h2, List.countP_cons]
    omega
  · unfold TaikoGradualDifficulty.new taikoInv
    simp [h1, h2]
  · intro s hInv
    obtain ⟨hI1, hI2⟩ := hInv
    unfold TaikoGradualDifficulty.next taikoInv
    by_cases hidx : 2 ≤ s.idx
    · rcases hd : taikoDrain c s.peaks s.diffObjects with ⟨p', rest', found⟩
      cases found
      · rw [if_pos hidx]
        obtain ⟨hcount, hrest⟩ := taikoDrain_false_count c _ _ _ _ hd
        subst hrest
        dsimp only
        have := hI2 hidx
        constructor
        · intro hlt
          omega
        · intro _
          simp only [List.countP_nil]
          omega
      · rw [if_pos hidx]
        have hcount := taikoDrain_true_count c _ _ _ _ hd
        dsimp only
        have := hI2 hidx
        constructor
        · intro hlt
          omega
        · intro _
          omega
    · rw [if_neg hidx]
      by_cases he : s.allEmpty
      · rw [if_pos he]
        exact ⟨hI1, hI2⟩
      · rw [if_neg he]
        dsimp only
        have := hI1 (by omega)
        constructor
        · intro hlt
          omega
        · intro hge
          omega
  · intro s a hInv hs
    obtain ⟨hI1, hI2⟩ := hInv
    unfold TaikoGradualDifficulty.next at hs ⊢
    unfold TaikoGradualDifficulty.len
    by_cases hidx : 2 ≤ s.idx
    · rcases hd : taikoDrain c s.peaks s.diffObjects with ⟨p', rest', found⟩
      cases found
      · rw [if_pos hidx, hd] at hs
        simp at hs
      · rw [if_pos hidx]
        have hcount := taikoDrain_true_count c _ _ _ _ hd
        dsimp only
        have := hI2 hidx
        omega
    · rw [if_neg hidx] at hs ⊢
      by_cases he : s.allEmpty
      · rw [if_pos he] at hs
        exact absurd hs (by simp)
      · rw [if_neg he]
        dsimp only
        have := hI1 (by omega)
        omega
  · intro s hInv hlen
    obtain ⟨hI1, hI2⟩ := hInv
    unfold TaikoGradualDifficulty.len at hlen
    by_cases hidx : 2 ≤ s.idx
    · have hcz : s.diffObjects.countP (fun o => c.isHit o) = 0 := by
        have := hI2 hidx
        omega
      obtain ⟨p', hp'⟩ := taikoDrain_of_count_zero c _ s.peaks hcz
      unfold TaikoGradualDifficulty.next
      rw [if_pos hidx, hp']
    · have := hI1 (by omega)
      omega

/-- Counterexample for C5 as stated: a map with a single hit-type object
has one hit-type object but a freshly constructed remaining length of 0. -/
theorem iterator_length_counterexample :
    (TaikoGradualDifficulty.new ctx0 [true] 0 0 false).len ≠
      [true].countP (fun o => ctx0.isHit o) := by
  decide

/-- Witness for C5 (amended) at a concrete map. -/
theorem iterator_length_invariants_witness :
    ctx0.isHit true = true ∧
    ((TaikoGradualDifficulty.new ctx0 [true, true, false, true] 0 0 false).len =
      [true, true, false, true].countP (fun o => ctx0.isHit o) ∧
    taikoInv ctx0 (TaikoGradualDifficulty.new ctx0 [true, true, false, true] 0 0 false) ∧
    (∀ s : TaikoGradualDifficulty ℕ Bool, taikoInv ctx0 s →
      taikoInv ctx0 (TaikoGradualDifficulty.next ctx0 s).2) ∧
    (∀ (s : TaikoGradualDifficulty ℕ Bool) (a : TaikoDifficultyAttributes),
      taikoInv ctx0 s → (TaikoGradualDifficulty.next ctx0 s).1 = some a →
      (TaikoGradualDifficulty.next ctx0 s).2.len + 1 = s.len) ∧
    (∀ s : TaikoGradualDifficulty ℕ Bool, taikoInv ctx0 s → s.len = 0 →
      (TaikoGradualDifficulty.next ctx0 s).1 = none)) :=
  ⟨rfl, iterator_length_invariants ctx0 true true [false, true] 0 0 false rfl rfl⟩

/-- `taikoStEq` is reflexive. -/
theorem taikoStEq_refl {P O : Type} (s : TaikoGradualDifficulty P O) : taikoStEq s s :=
  ⟨rfl, rfl, rfl, rfl, rfl, rfl, rfl, rfl⟩

/-- `taikoStEq` is transitive. -/
theorem taikoStEq_trans {P O : Type} {s1 s2 s3 : TaikoGradualDifficulty P O}
    (h : taikoStEq s1 s2) (h' : taikoStEq s2 s3) : taikoStEq s1 s3 := by
  obtain ⟨a1, a2, a3, a4, a5, a6, a7, a8⟩ := h
  obtain ⟨b1, b2, b3, b4, b5, b6, b7, b8⟩ := h'
  exact ⟨a1.trans b1, a2.trans b2, a3.trans b3, a4.trans b4, a5.trans b5,
    a6.trans b6, a7.trans b7, a8.trans b8⟩

/-- A single step behaves identically on `taikoStEq`-related states: it
emits the same snapshot and keeps the states related. -/
theorem taiko_next_congr {P O : Type} (c : TaikoCtx P O)
    (s s' : TaikoGradualDifficulty P O) (h : taikoStEq s s') :
    (TaikoGradualDifficulty.next c s).1 = (TaikoGradualDifficulty.next c s').1 ∧
    taikoStEq (TaikoGradualDifficulty.next c s).2 (TaikoGradualDifficulty.next c s').2 := by
  obtain ⟨i, ⟨st1, r1, c1, pk1, hw1, sr1, mc1⟩, objs, ae, pk, th, cv⟩ := s
  obtain ⟨i2, ⟨st2, r2, c2, pk2, hw2, sr2, mc2⟩, objs2, ae2, pk3, th2, cv2⟩ := s'
  unfold taikoStEq at h
  dsimp only at h
  obtain ⟨h1, h2, h3, h4, h5, h6, h7, h8⟩ := h
  subst h1 h2 h3 h4 h5 h6 h7 h8
  unfold TaikoGradualDifficulty.next
  dsimp only
  by_cases hidx : 2 ≤ i
  · simp only [if_pos hidx]
    rcases hd : taikoDrain c pk objs with ⟨p', rest', found⟩
    cases found
    · exact ⟨rfl, rfl, rfl, rfl, rfl, rfl, rfl, rfl, rfl⟩
    · exact ⟨rfl, rfl, rfl, rfl, rfl, rfl, rfl, rfl, rfl⟩
  · simp only [if_neg hidx]
    by_cases he : ae = true
    · simp only [if_pos he]
      exact ⟨trivial, rfl, rfl, rfl, rfl, rfl, rfl, rfl, rfl⟩
    · simp only [if_neg he]
      exact ⟨trivial, rfl, rfl, rfl, rfl, rfl, rfl, rfl, rfl⟩

/-- `k` steps behave identically on `taikoStEq`-related states. -/
theorem taiko_nexts_congr {P O : Type} (c : TaikoCtx P O) :
    ∀ (k : ℕ) (s s' : TaikoGradualDifficulty P O), taikoStEq s s' →
      (taikoNexts c k s).1 = (taikoNexts c k s').1 ∧
      taikoStEq (taikoNexts c k s).2 (taikoNexts c k s').2 := by
  intro k
  induction k with
  | zero => intro s s' h; exact ⟨rfl, h⟩
  | succ k ih =>
    intro s s' h
    obtain ⟨hr, hst⟩ := taiko_next_congr c s s' h
    cases k with
    | zero => exact ⟨hr, hst⟩
    | succ k' =>
      have := ih (TaikoGradualDifficulty.next c s).2 (TaikoGradualDifficulty.next c s').2 hst
      exact this

/-- Once the object iterator is exhausted in streaming state, every
further step is a no-op returning no snapshot. -/
theorem taiko_nexts_exhausted {P O : Type} (c : TaikoCtx P O) :
    ∀ (j : ℕ) (s : TaikoGradualDifficulty P O), 2 ≤ s.idx → s.diffObjects = [] →
      taikoNexts c j s = (none, s) := by
  intro j
  induction j with
  | zero => intro s _ _; rfl
  | succ j ih =>
    intro s hidx hempty
    have hnext : TaikoGradualDifficulty.next c s = (none, s) := by
      obtain ⟨i, a, objs, ae, pk, th, cv⟩ := s
      dsimp only at hempty hidx ⊢
      subst hempty
      unfold TaikoGradualDifficulty.next
      dsimp only
      rw [if_pos hidx]
      rw [show taikoDrain c pk ([] : List O) = (pk, [], false) from rfl]
    cases j with
    | zero => exact hnext
    | succ j' =>
      unfold taikoNexts
      rw [hnext]
      exact ih s hidx hempty

/-- In streaming state (index at least 2), the skip loop followed by a
final step emits the same snapshot as `k + 1` single steps and leaves a
`taikoStEq`-related state. -/
theorem taiko_skip_stream {P O : Type} (c : TaikoCtx P O) :
    ∀ (k : ℕ) (s : TaikoGradualDifficulty P O), 2 ≤ s.idx →
      (match taikoSkipLoop c k s with
        | (s', true) => TaikoGradualDifficulty.next c s'
        | (s', false) => (none, s')).1 = (taikoNexts c (k + 1) s).1 ∧
      taikoStEq (match taikoSkipLoop c k s with
        | (s', true) => TaikoGradualDifficulty.next c s'
        | (s', false) => (none, s')).2 (taikoNexts c (k + 1) s).2 := by
  intro k
  induction k with
  | zero =>
    intro s hs
    exact ⟨rfl, taikoStEq_refl _⟩
  | succ k ih =>
    intro s hs
    rcases hd : taikoDrain c s.peaks s.diffObjects with ⟨p', rest', found⟩
    have hnn : taikoNexts c (k + 1 + 1) s =
        taikoNexts c (k + 1) (TaikoGradualDifficulty.next c s).2 := rfl
    cases found
    · have hskip : taikoSkipLoop c (Nat.succ k) s =
          ({ s with peaks := p', diffObjects := rest' }, false) := by
        conv_lhs => rw [taikoSkipLoop]
        rw [hd]
      have hnext : TaikoGradualDifficulty.next c s =
          (none, { s with peaks := p', diffObjects := rest' }) := by
        unfold TaikoGradualDifficulty.next
        rw [if_pos hs, hd]
      have hempty : rest' = [] := (taikoDrain_false_count c _ _ _ _ hd).2
      have hrest : taikoNexts c (k + 1) ({ s with peaks := p', diffObjects := rest' } :
          TaikoGradualDifficulty P O) = (none, { s with peaks := p', diffObjects := rest' }) :=
        taiko_nexts_exhausted c (k + 1) _ hs hempty
      rw [hskip, hnn, hnext]
      dsimp only
      rw [hrest]
      exact ⟨rfl, taikoStEq_refl _⟩
    · have hskip : taikoSkipLoop c (Nat.succ k) s = taikoSkipLoop c k { s with peaks := p', diffObjects := rest', idx := s.idx + 1, attrs := { s.attrs with maxCombo := s.attrs.maxCombo + 1 } } := by
        conv_lhs => rw [taikoSkipLoop]
        rw [hd]
      have hnext : TaikoGradualDifficulty.next c s = (some (taikoEmit c p' s.isConvert s.attrs.hitWindow (s.attrs.maxCombo + 1)), { s with peaks := p', diffObjects := rest', idx := s.idx + 1, attrs := taikoEmit c p' s.isConvert s.attrs.hitWindow (s.attrs.maxCombo + 1) }) := by
        unfold TaikoGradualDifficulty.next
        rw [if_pos hs, hd]
      have hih := ih { s with peaks := p', diffObjects := rest', idx := s.idx + 1, attrs := { s.attrs with maxCombo := s.attrs.maxCombo + 1 } } (by dsimp only; omega)
      have hsteq : taikoStEq ({ s with peaks := p', diffObjects := rest', idx := s.idx + 1, attrs := { s.attrs with maxCombo := s.attrs.maxCombo + 1 } } : TaikoGradualDifficulty P O) { s with peaks := p', diffObjects := rest', idx := s.idx + 1, attrs := taikoEmit c p' s.isConvert s.attrs.hitWindow (s.attrs.maxCombo + 1) } :=
        ⟨rfl, rfl, rfl, rfl, rfl, rfl, rfl, rfl⟩
      have hcongr := taiko_nexts_congr c (k + 1) ({ s with peaks := p', diffObjects := rest', idx := s.idx + 1, attrs := { s.attrs with maxCombo := s.attrs.maxCombo + 1 } }) ({ s with peaks := p', diffObjects := rest', idx := s.idx + 1, attrs := taikoEmit c p' s.isConvert s.attrs.hitWindow (s.attrs.maxCombo + 1) }) hsteq
      rw [hskip, hnn, hnext]
      dsimp only
      exact ⟨hih.1.trans hcongr.1, taikoStEq_trans hih.2 hcongr.2⟩

/-- Peeling one step off an iterated-step run. -/
theorem taikoNexts_succ {P O : Type} (c : TaikoCtx P O) (m : ℕ) (hm : 1 ≤ m)
    (s : TaikoGradualDifficulty P O) :
    taikoNexts c (m + 1) s = taikoNexts c m (TaikoGradualDifficulty.next c s).2 := by
  cases m with
  | zero => omega
  | succ m' => rfl

/-- C2 (amended): one skip-ahead call `nth(k-1)` returns the same
snapshot as `k` successive `next()` calls (taking the `k`-th result) and
leaves the index, running combo, peak accumulator and object iterator in
the same state, provided `k` hit objects remain (`idx + k ≤ total_hits`,
so the internal clamp of `nth` is inactive) and the iterator is not in a
degenerate priming situation: from fewer than 2 admitted objects the
full object list must be nonempty, and from exactly 1 admitted object
only `k ≤ 2` is sound (the skip phase can jump the index from 1 to 3).
Intermediate objects are still admitted into the accumulator.  (As
stated, for every state and every `k`, the claim is refuted by the
counterexample below: `nth` clamps the skip to the remaining length, so
with 1 snapshot left, `nth(1)` still returns it while two `next()` calls
return `none`.) -/
theorem skip_ahead_equivalence {P O : Type} (c : TaikoCtx P O) (s : TaikoGradualDifficulty P O) (k : ℕ)
    (hk : 1 ≤ k) (hlen : s.idx + k ≤ s.totalHits)
    (hpr : 2 ≤ s.idx ∨ (s.allEmpty = false ∧ (s.idx = 0 ∨ k ≤ 2))) :
    (TaikoGradualDifficulty.nth c (k - 1) s).1 = (taikoNexts c k s).1 ∧
    taikoStEq (TaikoGradualDifficulty.nth c (k - 1) s).2 (taikoNexts c k s).2 := by
  have htake : min (k - 1) (s.len - 1) = k - 1 := by
    unfold TaikoGradualDifficulty.len
    omega
  unfold TaikoGradualDifficulty.nth
  rw [htake]
  dsimp only
  by_cases hidx : 2 ≤ s.idx
  · rw [if_neg (by omega : ¬(s.idx < 2 ∧ 0 < k - 1))]
    have := taiko_skip_stream c (k - 1) s hidx
    rw [show k - 1 + 1 = k from by omega] at this
    exact this
  · obtain ⟨hae, hzk⟩ := hpr.resolve_left hidx
    have hae' : ¬s.allEmpty = true := by simp [hae]
    have hnext1 : TaikoGradualDifficulty.next c s = (some (taikoEmit c s.peaks s.isConvert s.attrs.hitWindow s.attrs.maxCombo), { s with idx := s.idx + 1, attrs := taikoEmit c s.peaks s.isConvert s.attrs.hitWindow s.attrs.maxCombo }) := by
      unfold TaikoGradualDifficulty.next
      rw [if_neg (by omega), if_neg hae']
    rcases Nat.lt_or_ge k 2 with hk2 | hk2
    · have hk1 : k = 1 := by omega
      subst hk1
      rw [if_neg (by norm_num)]
      exact ⟨rfl, taikoStEq_refl _⟩
    · rw [if_pos ⟨by omega, by omega⟩]
      rcases Nat.lt_or_ge k 3 with hk3 | hk3
      · have hk2e : k = 2 := by omega
        subst hk2e
        rw [show ((2 : ℕ) - 1) ⊓ 2 = 1 from rfl, show (2 : ℕ) - 1 - 1 = 0 from rfl]
        rw [show taikoSkipLoop c 0 { s with idx := s.idx + 1 } = ({ s with idx := s.idx + 1 }, true) from rfl]
        dsimp only
        have hrw2 : taikoNexts c 2 s = TaikoGradualDifficulty.next c (TaikoGradualDifficulty.next c s).2 := rfl
        rw [hrw2, hnext1]
        dsimp only
        exact taiko_next_congr c _ _ ⟨rfl, rfl, rfl, rfl, rfl, rfl, rfl, rfl⟩
      · have hidx0 : s.idx = 0 := by omega
        rw [show (k - 1) ⊓ 2 = 2 from by omega]
        have hstream := taiko_skip_stream c (k - 1 - 2) { s with idx := s.idx + 2 } (by dsimp only; omega)
        rw [show k - 1 - 2 + 1 = k - 2 from by omega] at hstream
        have hrwk : taikoNexts c k s = taikoNexts c (k - 1) (TaikoGradualDifficulty.next c s).2 := by
          rw [show k = k - 1 + 1 from by omega]
          exact taikoNexts_succ c (k - 1) (by omega) s
        rw [hrwk, hnext1]
        dsimp only
        have hnext2 : TaikoGradualDifficulty.next c ({ s with idx := s.idx + 1, attrs := taikoEmit c s.peaks s.isConvert s.attrs.hitWindow s.attrs.maxCombo } : TaikoGradualDifficulty P O) = (some (taikoEmit c s.peaks s.isConvert s.attrs.hitWindow s.attrs.maxCombo), { s with idx := s.idx + 1 + 1, attrs := taikoEmit c s.peaks s.isConvert s.attrs.hitWindow s.attrs.maxCombo }) := by
          unfold TaikoGradualDifficulty.next
          rw [if_neg (by dsimp only; omega), if_neg (by dsimp only; simp [hae])]
          simp [taikoEmit]
        have hrwk2 : taikoNexts c (k - 1) ({ s with idx := s.idx + 1, attrs := taikoEmit c s.peaks s.isConvert s.attrs.hitWindow s.attrs.maxCombo } : TaikoGradualDifficulty P O) = taikoNexts c (k - 2) { s with idx := s.idx + 1 + 1, attrs := taikoEmit c s.peaks s.isConvert s.attrs.hitWindow s.attrs.maxCombo } := by
          rw [show k - 1 = k - 2 + 1 from by omega, taikoNexts_succ c (k - 2) (by omega)]
          rw [hnext2]
        rw [hrwk2]
        have hcongr := taiko_nexts_congr c (k - 2) ({ s with idx := s.idx + 2 } : TaikoGradualDifficulty P O) { s with idx := s.idx + 1 + 1, attrs := taikoEmit c s.peaks s.isConvert s.attrs.hitWindow s.attrs.maxCombo } ⟨rfl, rfl, rfl, rfl, rfl, rfl, rfl, rfl⟩
        exact ⟨hstream.1.trans hcongr.1, taikoStEq_trans hstream.2 hcongr.2⟩

/-- Counterexample for C2 as stated: on a streaming state with a single
hit object left (`ts0`), `nth(1)` (skip-ahead by 2) still emits the last
snapshot because of the internal clamp, while two successive `next()`
calls end with `none`. -/
theorem skip_ahead_counterexample :
    ¬((TaikoGradualDifficulty.nth ctx0 (2 - 1) ts0).1 = (taikoNexts ctx0 2 ts0).1 ∧
      taikoStEq (TaikoGradualDifficulty.nth ctx0 (2 - 1) ts0).2 (taikoNexts ctx0 2 ts0).2) := by
  intro h
  have h1 := h.1
  have hl : (TaikoGradualDifficulty.nth ctx0 (2 - 1) ts0).1 =
      some (taikoEmit ctx0 1 false 0 1) := by
    simp [TaikoGradualDifficulty.nth, TaikoGradualDifficulty.len, ts0, tattrs0,
      taikoSkipLoop, TaikoGradualDifficulty.next, taikoDrain, ctx0]
  have hr : (taikoNexts ctx0 2 ts0).1 = none := by
    simp [taikoNexts, TaikoGradualDifficulty.next, ts0, tattrs0, taikoDrain, ctx0, taikoEmit]
  rw [hl, hr] at h1
  exact Option.noConfusion h1

/-- Witness for C2 (amended) at a concrete streaming state and `k = 2`. -/
theorem skip_ahead_equivalence_witness :
    (1 ≤ 2 ∧ ts1.idx + 2 ≤ ts1.totalHits ∧
      (2 ≤ ts1.idx ∨ (ts1.allEmpty = false ∧ (ts1.idx = 0 ∨ 2 ≤ 2)))) ∧
    ((TaikoGradualDifficulty.nth ctx0 (2 - 1) ts1).1 = (taikoNexts ctx0 2 ts1).1 ∧
      taikoStEq (TaikoGradualDifficulty.nth ctx0 (2 - 1) ts1).2 (taikoNexts ctx0 2 ts1).2) :=
  ⟨⟨by decide, by decide, Or.inl (by decide)⟩,
    skip_ahead_equivalence ctx0 ts1 2 (by decide) (by decide) (Or.inl (by decide))⟩
